import Mathlib

/-!
Verification of the deterministic parameter generator, template renderer,
polar formatter and related utilities of the question-booklet generator
repository.  Python code is shallowly embedded: fallible operations return
`Except PyErr`, Python `%` on integers is `Int.fmod`, Python slices and
negative list indexing are modelled explicitly, and the MD5 digest is
implemented in full so that the generator is executable on concrete inputs.
-/

set_option maxRecDepth 4000

/-- The Python exceptions the embedded fragments can raise. -/
inductive PyErr : Type
  | valueError
  | zeroDivisionError
  | indexError
deriving DecidableEq

instance {ε α : Type} [DecidableEq ε] [DecidableEq α] : DecidableEq (Except ε α) := fun x y =>
  match x, y with
  | .ok a, .ok b =>
    if h : a = b then .isTrue (by rw [h]) else .isFalse (fun hh => h (Except.ok.inj hh))
  | .error a, .error b =>
    if h : a = b then .isTrue (by rw [h]) else .isFalse (fun hh => h (Except.error.inj hh))
  | .ok _, .error _ => .isFalse (fun hh => Except.noConfusion hh)
  | .error _, .ok _ => .isFalse (fun hh => Except.noConfusion hh)

/-- Left-to-right effectful map over a list, as a Python list comprehension
evaluates its elements: the first raised exception aborts the whole list. -/
def mapME (f : α → Except PyErr β) : List α → Except PyErr (List β)
  | [] => .ok []
  | x :: xs => do
    let y ← f x
    let ys ← mapME f xs
    pure (y :: ys)

/-- Python slice `l[i:j]` (for `0 ≤ i ≤ j`): clamps at the length. -/
def pySlice (l : List α) (i j : Nat) : List α :=
  (l.take j).drop i

/-- Value of one digit under Python `int(_, 32)`:
`0`-`9` are 0–9, `a`-`v` (or `A`-`V`) are 10–31. -/
def digitVal32 (c : Char) : Option Nat :=
  if '0' ≤ c ∧ c ≤ '9' then some (c.toNat - 48)
  else if 'a' ≤ c ∧ c ≤ 'v' then some (c.toNat - 87)
  else if 'A' ≤ c ∧ c ≤ 'V' then some (c.toNat - 55)
  else none

/-- Accumulator loop of `int(_, 32)`. -/
def pyIntBase32Go (acc : Nat) : List Char → Except PyErr Nat
  | [] => .ok acc
  | c :: t =>
    match digitVal32 c with
    | none => .error .valueError
    | some d => pyIntBase32Go (32 * acc + d) t

/-- Python `int(s, 32)` on a plain digit string: raises `ValueError` on the
empty string or on a character that is not a base-32 digit. -/
def pyIntBase32 (s : List Char) : Except PyErr Nat :=
  if s.isEmpty then .error .valueError
  else pyIntBase32Go 0 s

/-- Python `x % m` on integers: floor-remainder (sign of the divisor),
raising `ZeroDivisionError` when the divisor is zero. -/
def pyMod (x m : Int) : Except PyErr Int :=
  if m = 0 then .error .zeroDivisionError
  else .ok (Int.fmod x m)

/-- UTF-8 encoding of one code point (Python `str.encode()`). -/
def utf8Char (c : Char) : List Nat :=
  let n := c.toNat
  if n < 0x80 then [n]
  else if n < 0x800 then
    [0xc0 ||| (n >>> 6), 0x80 ||| (n &&& 0x3f)]
  else if n < 0x10000 then
    [0xe0 ||| (n >>> 12), 0x80 ||| ((n >>> 6) &&& 0x3f), 0x80 ||| (n &&& 0x3f)]
  else
    [0xf0 ||| (n >>> 18), 0x80 ||| ((n >>> 12) &&& 0x3f),
     0x80 ||| ((n >>> 6) &&& 0x3f), 0x80 ||| (n &&& 0x3f)]

/-- UTF-8 byte sequence of a string (Python `s.encode()`). -/
def utf8Bytes (s : String) : List Nat :=
  s.data.flatMap utf8Char

/-! ### MD5 (RFC 1321), on byte lists, all words reduced modulo 2^32 -/

/-- The 64 MD5 sine-derived constants `T[i+1] = ⌊2³² · |sin (i+1)|⌋`. -/
def md5K : List Nat :=
  [0xd76aa478, 0xe8c7b756, 0x242070db, 0xc1bdceee,
   0xf57c0faf, 0x4787c62a, 0xa8304613, 0xfd469501,
   0x698098d8, 0x8b44f7af, 0xffff5bb1, 0x895cd7be,
   0x6b901122, 0xfd987193, 0xa679438e, 0x49b40821,
   0xf61e2562, 0xc040b340, 0x265e5a51, 0xe9b6c7aa,
   0xd62f105d, 0x02441453, 0xd8a1e681, 0xe7d3fbc8,
   0x21e1cde6, 0xc33707d6, 0xf4d50d87, 0x455a14ed,
   0xa9e3e905, 0xfcefa3f8, 0x676f02d9, 0x8d2a4c8a,
   0xfffa3942, 0x8771f681, 0x6d9d6122, 0xfde5380c,
   0xa4beea44, 0x4bdecfa9, 0xf6bb4b60, 0xbebfbc70,
   0x289b7ec6, 0xeaa127fa, 0xd4ef3085, 0x04881d05,
   0xd9d4d039, 0xe6db99e5, 0x1fa27cf8, 0xc4ac5665,
   0xf4292244, 0x432aff97, 0xab9423a7, 0xfc93a039,
   0x655b59c3, 0x8f0ccc92, 0xffeff47d, 0x85845dd1,
   0x6fa87e4f, 0xfe2ce6e0, 0xa3014314, 0x4e0811a1,
   0xf7537e82, 0xbd3af235, 0x2ad7d2bb, 0xeb86d391]

/-- The 64 MD5 per-round left-rotation amounts. -/
def md5S : List Nat :=
  [7, 12, 17, 22, 7, 12, 17, 22, 7, 12, 17, 22, 7, 12, 17, 22,
   5, 9, 14, 20, 5, 9, 14, 20, 5, 9, 14, 20, 5, 9, 14, 20,
   4, 11, 16, 23, 4, 11, 16, 23, 4, 11, 16, 23, 4, 11, 16, 23,
   6, 10, 15, 21, 6, 10, 15, 21, 6, 10, 15, 21, 6, 10, 15, 21]

/-- 32-bit left rotation on `Nat` (input assumed `< 2³²`). -/
def rotl32 (x c : Nat) : Nat :=
  ((x <<< c) % 4294967296) ||| (x >>> (32 - c))

/-- Little-endian 32-bit word from four bytes of a block at word index `j`. -/
def md5Word (block : List Nat) (j : Nat) : Nat :=
  block.getD (4 * j) 0 + 256 * block.getD (4 * j + 1) 0 +
    65536 * block.getD (4 * j + 2) 0 + 16777216 * block.getD (4 * j + 3) 0

/-- One of the 64 MD5 rounds applied to the running state `(A, B, C, D)`. -/
def md5Round (block : List Nat) (st : Nat × Nat × Nat × Nat) (i : Nat) :
    Nat × Nat × Nat × Nat :=
  let A := st.1
  let B := st.2.1
  let C := st.2.2.1
  let D := st.2.2.2
  let F :=
    if i < 16 then (B &&& C) ||| ((0xffffffff ^^^ B) &&& D)
    else if i < 32 then (D &&& B) ||| ((0xffffffff ^^^ D) &&& C)
    else if i < 48 then B ^^^ C ^^^ D
    else C ^^^ (B ||| (0xffffffff ^^^ D))
  let g :=
    if i < 16 then i
    else if i < 32 then (5 * i + 1) % 16
    else if i < 48 then (3 * i + 5) % 16
    else (7 * i) % 16
  let tmp := (F + A + md5K.getD i 0 + md5Word block g) % 4294967296
  (D, (B + rotl32 tmp (md5S.getD i 0)) % 4294967296, B, C)

/-- Process one 64-byte block, updating the four state words. -/
def md5Block (st : Nat × Nat × Nat × Nat) (block : List Nat) :
    Nat × Nat × Nat × Nat :=
  let r := (List.range 64).foldl (md5Round block) st
  ((st.1 + r.1) % 4294967296, (st.2.1 + r.2.1) % 4294967296,
   (st.2.2.1 + r.2.2.1) % 4294967296, (st.2.2.2 + r.2.2.2) % 4294967296)

/-- Split a byte list into 64-byte blocks (structural recursion on a fuel
argument so that the definition reduces in the kernel; each step consumes at
least one element, so fuel `l.length` always suffices). -/
def toBlocksGo (fuel : Nat) (l : List Nat) : List (List Nat) :=
  match fuel, l with
  | _, [] => []
  | 0, l => [l]
  | fuel + 1, x :: xs => (x :: xs).take 64 :: toBlocksGo fuel ((x :: xs).drop 64)

/-- Split a byte list into 64-byte blocks. -/
def toBlocks (l : List Nat) : List (List Nat) :=
  toBlocksGo l.length l

/-- Little-endian serialization of `k` bytes of a number. -/
def leBytes (k w : Nat) : List Nat :=
  match k with
  | 0 => []
  | k + 1 => w % 256 :: leBytes k (w / 256)

/-- MD5 padding: append `0x80`, zero-pad to 56 mod 64, then the 64-bit
little-endian bit length. -/
def md5Pad (msg : List Nat) : List Nat :=
  msg ++ 0x80 :: List.replicate ((119 - msg.length % 64) % 64) 0 ++
    leBytes 8 (8 * msg.length)

/-- MD5 digest: 16 bytes. -/
def md5 (msg : List Nat) : List Nat :=
  let st := (toBlocks (md5Pad msg)).foldl md5Block
    (0x67452301, 0xefcdab89, 0x98badcfe, 0x10325476)
  leBytes 4 st.1 ++ leBytes 4 st.2.1 ++ leBytes 4 st.2.2.1 ++ leBytes 4 st.2.2.2

/-- Lowercase hex digit for a value `< 16`. -/
def hexChar (n : Nat) : Char :=
  if n < 10 then Char.ofNat (48 + n) else Char.ofNat (87 + n)

/-- The 32 nibbles (high first within each byte) of the MD5 digest of the
UTF-8 encoding of a string. -/
def md5Nibbles (s : String) : List Nat :=
  (md5 (utf8Bytes s)).flatMap (fun b => [b / 16, b % 16])

/-- Python `hashlib.md5(s.encode()).hexdigest()` as a character list: the 32
lowercase hex characters of the digest. -/
def md5HexOfString (s : String) : List Char :=
  (md5Nibbles s).map hexChar

/-! ### The generator functions (`generate_question.py` / `Ass-01.py`) -/

/-- Embedding of `generate_integers_range(ID, variation, n, a, b)`:
seed `f"{ID}{variation}"`, `h = md5(seed).hexdigest()`, then
`[(int(h[i:i+2], 32) % (b - a + 1)) + a for i in range(0, n * 2, 2)]`. -/
def generate_integers_range (ID variation : String) (n : Nat) (a b : Int) :
    Except PyErr (List Int) :=
  let h := md5HexOfString (ID ++ variation)
  mapME (fun k => do
    let v ← pyIntBase32 (pySlice h (2 * k) (2 * k + 2))
    let r ← pyMod (v : Int) (b - a + 1)
    pure (r + a)) (List.range n)

/-- Embedding of `generate_integer(ID, variation, a, b)` from `generate_question.py`:
`(int(h[0:2], 32) % (b - a + 1)) + a`. -/
def generate_integer (ID variation : String) (a b : Int) :
    Except PyErr Int :=
  let h := md5HexOfString (ID ++ variation)
  do
    let v ← pyIntBase32 (pySlice h 0 2)
    let r ← pyMod (v : Int) (b - a + 1)
    pure (r + a)

/-! ### Python `str.replace` and the template renderer -/

/-- Scanning loop of Python `str.replace` for a nonempty pattern `o :: os`:
replace leftmost non-overlapping occurrences.  Structural recursion on a fuel
argument (each step consumes at least one character, so fuel `s.length`
always suffices). -/
def pyReplaceGo (o : Char) (os new : List Char) : Nat → List Char → List Char
  | _, [] => []
  | 0, s => s
  | fuel + 1, c :: t =>
    if (o :: os).isPrefixOf (c :: t) then
      new ++ pyReplaceGo o os new fuel (t.drop os.length)
    else c :: pyReplaceGo o os new fuel t

/-- Python `s.replace(old, new)`: all leftmost non-overlapping occurrences of
`old` replaced by `new`; with an empty `old`, `new` is inserted before every
character and at the end. -/
def pyReplace (s old new : List Char) : List Char :=
  match old with
  | [] => new ++ s.flatMap (fun c => c :: new)
  | o :: os => pyReplaceGo o os new s.length s

/-- Python `pat in s` for strings: substring occurrence test. -/
def hasSubstr (s pat : List Char) : Bool :=
  match s with
  | [] => pat.isEmpty
  | _ :: t => pat.isPrefixOf s || hasSubstr t pat

/-- A primitive Python value handed to the renderer as a keyword argument. -/
inductive PyVal : Type
  | s (v : String)
  | i (v : Int)
deriving DecidableEq

/-- Python `str(val)` on the values the templates receive. -/
def pyStr : PyVal → String
  | .s v => v
  | .i v => toString v

/-- Embedding of `replace_placeholders(template_text, **kwargs)` from `Ass-01.py`
(also `replace_template_placeholders` in the other two scripts):
for each supplied key, `template_text = template_text.replace(f"@{key}@",
str(val))`, in the order the keyword arguments are written. -/
def replace_placeholders (template_text : String) (kwargs : List (String × PyVal)) : String :=
  kwargs.foldl
    (fun acc kv => String.mk (pyReplace acc.data ("@" ++ kv.1 ++ "@").data (pyStr kv.2).data))
    template_text

/-! ### `safe_filename` (`Ass-01.py` line 103) -/

/-- Python regex `\w` on the ASCII range: letters, digits, underscore. -/
def isPyWordChar (c : Char) : Bool :=
  c.isAlphanum || c == '_'

/-- Python regex `\s` / `str.strip` whitespace (ASCII range). -/
def isPySpace (c : Char) : Bool :=
  c == ' ' || c == '\t' || c == '\n' || c == '\r' || c == '\x0b' || c == '\x0c'

/-- Python `str.strip()`: drop whitespace from both ends. -/
def pyStrip (l : List Char) : List Char :=
  ((l.dropWhile isPySpace).reverse.dropWhile isPySpace).reverse

/-- Embedding of `safe_filename(name)`: `re.sub(r"[^\w\s-]", "", str(name or
"Unknown")).strip().replace(" ", "_")`.  The argument models the spreadsheet
cell: `none` is Python `None`; `name or "Unknown"` falls back exactly when
the value is falsy (`None` or the empty string). -/
def safe_filename (name : Option String) : String :=
  let base := match name with
    | none => "Unknown"
    | some s => if s.isEmpty then "Unknown" else s
  let filtered := base.data.filter (fun c => isPyWordChar c || isPySpace c || c == '-')
  String.mk (pyReplace (pyStrip filtered) [' '] ['_'])

/-! ### Question bank: `Q5_get_prove_trig_hyp` (`Ass-01.py` line 248) -/

/-- Python list subscription `arr[idx]`: a negative index counts from the
end; out-of-bounds raises `IndexError`. -/
def pyGetList (arr : List α) (idx : Int) : Except PyErr α :=
  if 0 ≤ idx then
    if h : idx.toNat < arr.length then .ok (arr.get ⟨idx.toNat, h⟩)
    else .error .indexError
  else
    if h : ((arr.length : Int) + idx).toNat < arr.length ∧ 0 ≤ (arr.length : Int) + idx then
      .ok (arr.get ⟨((arr.length : Int) + idx).toNat, h.1⟩)
    else .error .indexError

/-- The fixed catalog of the `Q5_get_prove_trig_hyp` family. -/
def Q5_arr : List String :=
  ["\\sin^\x7b-1\x7d z = \\frac\x7b1\x7d\x7bi\x7d\\,\\ln\\!\\big( iz + \\sqrt\x7b1 - z^2\x7d \\big)",
   "\\cos^\x7b-1\x7d z = \\frac\x7b1\x7d\x7bi\x7d\\,\\ln\\!\\big( z + \\sqrt\x7bz^2 - 1\x7d \\big)",
   "\\tan^\x7b-1\x7d z = \\frac\x7b1\x7d\x7b2i\x7d\\,\\ln\\!\\left( \\frac\x7b1 + iz\x7d\x7b1 - iz\x7d \\right)",
   "\\cosec^\x7b-1\x7d z = \\frac\x7b1\x7d\x7bi\x7d\\,\\ln\\!\\left( \\frac\x7bi + \\sqrt\x7bz^2 - 1\x7d\x7d\x7bz\x7d \\right)",
   "\\sec^\x7b-1\x7d z = \\frac\x7b1\x7d\x7bi\x7d\\,\\ln\\!\\left( \\frac\x7b1 + \\sqrt\x7b1 - z^2\x7d\x7d\x7bz\x7d \\right)",
   "\\cot^\x7b-1\x7d z = \\frac\x7b1\x7d\x7b2i\x7d\\,\\ln\\!\\left( \\frac\x7bz + i\x7d\x7bz - i\x7d \\right)",
   "\\sinh^\x7b-1\x7d z = \\ln\\!\\big( z + \\sqrt\x7bz^2 + 1\x7d \\big)",
   "\\cosh^\x7b-1\x7d z = \\ln\\!\\big( z + \\sqrt\x7bz^2 - 1\x7d \\big)",
   "\\tanh^\x7b-1\x7d z = \\frac\x7b1\x7d\x7b2\x7d\\,\\ln\\!\\left( \\frac\x7b1 + z\x7d\x7b1 - z\x7d \\right)",
   "\\cosech^\x7b-1\x7d z = \\ln\\!\\left( \\frac\x7b1 + \\sqrt\x7bz^2 + 1\x7d\x7d\x7bz\x7d \\right)",
   "\\sech^\x7b-1\x7d z = \\ln\\!\\left( \\frac\x7b1 + \\sqrt\x7b1 - z^2\x7d\x7d\x7bz\x7d \\right)",
   "\\coth^\x7b-1\x7d z = \\frac\x7b1\x7d\x7b2\x7d\\,\\ln\\!\\left( \\frac\x7bz + 1\x7d\x7bz - 1\x7d \\right)"]

/-- Embedding of `Q5_get_prove_trig_hyp(n)`: `s = arr[n - 1]`, then
`fr"Prove that $${s}.$$"`. -/
def Q5_get_prove_trig_hyp (n : Int) : Except PyErr String :=
  (pyGetList Q5_arr (n - 1)).map (fun s => "Prove that $$" ++ s ++ ".$$")

/-! ### The polar formatter `complex_in_latex`
(`Ass-01.py` line 155 / `generate_separate_questions.py` line 157).
The sympy objects `r`, `cos(theta)`, `sin(theta)` are exact symbolic
quantities; they are embedded as the real numbers they denote. -/

/-- The fixed `angle_map` table: angle index → degrees. -/
def angle_map : List ℕ :=
  [0, 30, 45, 60, 90, 120, 135, 150, 180, 210, 225, 240, 270, 300, 315, 330]

/-- The angle `theta = Rational(angle_map[theta_index]) * pi / 180`. -/
noncomputable def theta_rad (k : Fin 16) : ℝ :=
  (angle_map.getD k.val 0 : ℝ) * Real.pi / 180

/-- The rectangular component `x = r * cos(theta)` computed by
`complex_in_latex` (exactly, as sympy does). -/
noncomputable def complex_in_latex_x (r : ℚ) (k : Fin 16) : ℝ :=
  (r : ℝ) * Real.cos (theta_rad k)

/-- The rectangular component `y = r * sin(theta)` computed by
`complex_in_latex` (exactly, as sympy does). -/
noncomputable def complex_in_latex_y (r : ℚ) (k : Fin 16) : ℝ :=
  (r : ℝ) * Real.sin (theta_rad k)

/-! ## Lemmas about the embedded primitives -/

theorem mapME_map {f : α → Except PyErr β} {g : α → β} :
    ∀ {l : List α}, (∀ x ∈ l, f x = .ok (g x)) → mapME f l = .ok (l.map g) := by
  intro l
  induction l with
  | nil => intro _; rfl
  | cons x xs ih =>
    intro h
    have hx := h x (List.mem_cons_self x xs)
    have hxs := ih (fun y hy => h y (List.mem_cons_of_mem x hy))
    simp [mapME, hx, hxs, bind, Except.bind, pure, Except.pure]

theorem mapME_cons_error {f : α → Except PyErr β} {x : α} {e : PyErr}
    (hx : f x = .error e) (l : List α) : mapME f (x :: l) = .error e := by
  simp [mapME, hx, bind, Except.bind]

theorem mapME_append_error {f : α → Except PyErr β} {e : PyErr} :
    ∀ {l₁ : List α} {ys : List β}, mapME f l₁ = .ok ys →
      ∀ {x : α}, f x = .error e → ∀ (l₂ : List α), mapME f (l₁ ++ x :: l₂) = .error e := by
  intro l₁
  induction l₁ with
  | nil =>
    intro ys _ x hx l₂
    simpa using mapME_cons_error hx l₂
  | cons z zs ih =>
    intro ys h₁ x hx l₂
    rcases hz : f z with e' | y
    · rw [mapME_cons_error hz] at h₁; exact absurd h₁ (by simp)
    · rcases hzs : mapME f zs with e' | ys'
      · rw [show mapME f (z :: zs) = .error e' by
          simp [mapME, hz, hzs, bind, Except.bind]] at h₁
        exact absurd h₁ (by simp)
      · have := ih hzs hx l₂
        simp [mapME, hz, this, bind, Except.bind]

theorem leBytes_length (k w : Nat) : (leBytes k w).length = k := by
  induction k generalizing w with
  | zero => rfl
  | succ k ih => simp [leBytes, ih]

theorem leBytes_mem_lt {k w : Nat} : ∀ x ∈ leBytes k w, x < 256 := by
  induction k generalizing w with
  | zero => simp [leBytes]
  | succ k ih =>
    intro x hx
    simp only [leBytes, List.mem_cons] at hx
    rcases hx with h | h
    · omega
    · exact ih x h

theorem md5_length (msg : List Nat) : (md5 msg).length = 16 := by
  simp [md5, leBytes_length]

theorem md5_mem_lt {msg : List Nat} : ∀ x ∈ md5 msg, x < 256 := by
  intro x hx
  simp only [md5, List.mem_append] at hx
  rcases hx with ((h | h) | h) | h <;> exact leBytes_mem_lt x h

theorem pairFlat_length (f g : Nat → Nat) :
    ∀ l : List Nat, (l.flatMap fun b => [f b, g b]).length = 2 * l.length := by
  intro l
  induction l with
  | nil => rfl
  | cons b t ih =>
    simp only [List.flatMap_cons, List.length_append, List.length_cons, List.length_nil, ih]
    omega

theorem md5Nibbles_length (s : String) : (md5Nibbles s).length = 32 := by
  unfold md5Nibbles
  rw [pairFlat_length (fun b => b / 16) (fun b => b % 16), md5_length]

theorem md5Nibbles_lt {s : String} : ∀ x ∈ md5Nibbles s, x < 16 := by
  intro x hx
  simp only [md5Nibbles, List.mem_flatMap, List.mem_cons, List.not_mem_nil, or_false] at hx
  obtain ⟨b, hb, hx⟩ := hx
  have hb256 : b < 256 := md5_mem_lt b hb
  rcases hx with rfl | rfl
  · omega
  · exact Nat.mod_lt _ (by omega)

theorem md5HexOfString_length (s : String) : (md5HexOfString s).length = 32 := by
  simp [md5HexOfString, md5Nibbles_length]

theorem digitVal32_hexChar {v : Nat} (hv : v < 16) : digitVal32 (hexChar v) = some v := by
  interval_cases v <;> decide

theorem pyIntBase32_pair {c₁ c₂ : Char} {d₁ d₂ : Nat}
    (h₁ : digitVal32 c₁ = some d₁) (h₂ : digitVal32 c₂ = some d₂) :
    pyIntBase32 [c₁, c₂] = .ok (32 * d₁ + d₂) := by
  simp [pyIntBase32, pyIntBase32Go, h₁, h₂]

theorem pySlice_two {α : Type} (d : α) :
    ∀ (l : List α) (i : Nat), i + 2 ≤ l.length →
      pySlice l i (i + 2) = [l.getD i d, l.getD (i + 1) d] := by
  intro l
  induction l with
  | nil => intro i hi; simp at hi
  | cons a t ih =>
    intro i hi
    match i with
    | 0 =>
      match t, hi with
      | b :: t', _ => simp [pySlice]
    | i' + 1 =>
      have := ih i' (by simpa [Nat.succ_le_succ_iff] using hi)
      simpa [pySlice, List.take_succ_cons, List.drop_succ_cons] using this

theorem pySlice_of_le {α : Type} (l : List α) {i : Nat} (h : l.length ≤ i) (j : Nat) :
    pySlice l i j = [] := by
  apply List.drop_eq_nil_of_le
  rw [List.length_take]
  omega

/-- The `k`-th integer the generator derives from a seed string `s` for
bounds `a, b`: the `k`-th 2-hex-character chunk of the digest read in base
32, floor-reduced modulo `b - a + 1`, plus `a`. -/
def genSpecElem (s : String) (a b : Int) (k : Nat) : Int :=
  Int.fmod ((32 * (md5Nibbles s).getD (2 * k) 0 + (md5Nibbles s).getD (2 * k + 1) 0 : ℕ) : ℤ)
    (b - a + 1) + a

theorem md5Hex_getD (s : String) (j : Nat) :
    (md5HexOfString s).getD j (hexChar 0) = hexChar ((md5Nibbles s).getD j 0) := by
  simp [md5HexOfString, List.getD_map]

theorem md5Nibbles_getD_lt (s : String) {j : Nat} (hj : j < 32) :
    (md5Nibbles s).getD j 0 < 16 := by
  have hlen : j < (md5Nibbles s).length := by rw [md5Nibbles_length]; exact hj
  rw [List.getD_eq_getElem _ _ hlen]
  exact md5Nibbles_lt _ (List.getElem_mem hlen)

theorem chunk_parse_ok (s : String) {k : Nat} (hk : k < 16) :
    pyIntBase32 (pySlice (md5HexOfString s) (2 * k) (2 * k + 2)) =
      .ok (32 * (md5Nibbles s).getD (2 * k) 0 + (md5Nibbles s).getD (2 * k + 1) 0) := by
  have hlen : 2 * k + 2 ≤ (md5HexOfString s).length := by
    rw [md5HexOfString_length]; omega
  rw [pySlice_two (hexChar 0) _ _ hlen, md5Hex_getD, md5Hex_getD]
  exact pyIntBase32_pair
    (digitVal32_hexChar (md5Nibbles_getD_lt s (by omega)))
    (digitVal32_hexChar (md5Nibbles_getD_lt s (by omega)))

theorem gen_elem_ok (ID v : String) (a b : Int) (hm : b - a + 1 ≠ 0)
    {k : Nat} (hk : k < 16) :
    (do
      let w ← pyIntBase32 (pySlice (md5HexOfString (ID ++ v)) (2 * k) (2 * k + 2))
      let r ← pyMod (w : Int) (b - a + 1)
      pure (r + a) : Except PyErr Int) = .ok (genSpecElem (ID ++ v) a b k) := by
  rw [chunk_parse_ok _ hk]
  simp [pyMod, hm, bind, Except.bind, pure, Except.pure, genSpecElem]

theorem generate_integers_range_eq (ID v : String) (n : Nat) (a b : Int)
    (hn : n ≤ 16) (hm : b - a + 1 ≠ 0) :
    generate_integers_range ID v n a b =
      .ok ((List.range n).map (genSpecElem (ID ++ v) a b)) := by
  apply mapME_map
  intro k hk
  have hk16 : k < 16 := lt_of_lt_of_le (List.mem_range.mp hk) hn
  exact gen_elem_ok ID v a b hm hk16

/-! ## Claim C1: determinism and purity of the generator -/

/-- C1.  The parameter generator is deterministic and pure: it is a
mathematical function of its five arguments (a repeated call returns the
same value — in the embedding there is no other state it could consult),
and in fact it depends on the identifier and variation label only through
their concatenation, the digest seed. -/
theorem generator_deterministic (ID v : String) (n : Nat) (a b : Int) :
    generate_integers_range ID v n a b = generate_integers_range ID v n a b ∧
    ∀ ID' v' : String, ID ++ v = ID' ++ v' →
      generate_integers_range ID v n a b = generate_integers_range ID' v' n a b := by
  refine ⟨rfl, fun ID' v' h => ?_⟩
  simp only [generate_integers_range, h]

/-- Witness for C1 at concrete inputs: two seeds that concatenate to the
same string give identical outputs. -/
theorem generator_deterministic_witness :
    generate_integers_range "ab" "c" 1 0 9 = generate_integers_range "a" "bc" 1 0 9 :=
  (generator_deterministic "ab" "c" 1 0 9).2 "a" "bc" (by decide)

/-! ## Claim C2: shape and range of the generator output -/

/-- C2.  For `1 ≤ n ≤ 16` and `a ≤ b` the generator returns exactly `n`
integers; the `i`-th equals the `i`-th 2-character chunk of the MD5 hex
digest of `ID ++ v` parsed in base 32, reduced mod `b - a + 1`, plus `a`;
and every element lies in `[a, b]`. -/
theorem generator_output_spec (ID v : String) (n : Nat) (a b : Int)
    (hn1 : 1 ≤ n) (hn : n ≤ 16) (hab : a ≤ b) :
    ∃ l : List Int, generate_integers_range ID v n a b = .ok l ∧
      l.length = n ∧
      (∀ i, i < n → ∃ w : Nat,
        pyIntBase32 (pySlice (md5HexOfString (ID ++ v)) (2 * i) (2 * i + 2)) = .ok w ∧
        l.getD i 0 = Int.fmod (w : ℤ) (b - a + 1) + a) ∧
      (∀ x ∈ l, a ≤ x ∧ x ≤ b) := by
  have hm : b - a + 1 ≠ 0 := by omega
  have hmpos : (0 : ℤ) < b - a + 1 := by omega
  refine ⟨(List.range n).map (genSpecElem (ID ++ v) a b),
    generate_integers_range_eq ID v n a b hn hm, by simp, ?_, ?_⟩
  · intro i hi
    refine ⟨32 * (md5Nibbles (ID ++ v)).getD (2 * i) 0 + (md5Nibbles (ID ++ v)).getD (2 * i + 1) 0,
      chunk_parse_ok _ (by omega), ?_⟩
    have hilt : i < ((List.range n).map (genSpecElem (ID ++ v) a b)).length := by
      simpa using hi
    rw [List.getD_eq_getElem _ _ hilt]
    simp [List.getElem_map, List.getElem_range, genSpecElem]
  · intro x hx
    simp only [List.mem_map, List.mem_range] at hx
    obtain ⟨k, _, rfl⟩ := hx
    unfold genSpecElem
    have h1 := Int.fmod_nonneg'
      ((32 * (md5Nibbles (ID ++ v)).getD (2 * k) 0 + (md5Nibbles (ID ++ v)).getD (2 * k + 1) 0 : ℕ) : ℤ)
      hmpos
    have h2 := Int.fmod_lt_of_pos
      ((32 * (md5Nibbles (ID ++ v)).getD (2 * k) 0 + (md5Nibbles (ID ++ v)).getD (2 * k + 1) 0 : ℕ) : ℤ)
      hmpos
    omega

/-- Witness for C2: the spec scenario `ID="12345"`, label `"Q1_n"`, `n=1`,
range `[5, 7]`. -/
theorem generator_output_spec_witness :
    ∃ l : List Int, generate_integers_range "12345" "Q1_n" 1 5 7 = .ok l ∧
      l.length = 1 ∧
      (∀ i, i < 1 → ∃ w : Nat,
        pyIntBase32 (pySlice (md5HexOfString ("12345" ++ "Q1_n")) (2 * i) (2 * i + 2)) = .ok w ∧
        l.getD i 0 = Int.fmod (w : ℤ) (7 - 5 + 1) + 5) ∧
      (∀ x ∈ l, 5 ≤ x ∧ x ≤ 7) :=
  generator_output_spec "12345" "Q1_n" 1 5 7 (by decide) (by decide) (by decide)

/-! ## Claim C3: behaviour when `a > b` (corrected) -/

/-- Counterexample to C3: with `a = 5 > 3 = b` the generator does **not**
fail — Python `%` accepts the negative modulus `b - a + 1 = -1` — and
returns the list `[5]`. -/
theorem generator_invalid_range_counterexample :
    generate_integers_range "x" "y" 1 5 3 = .ok [5] := by decide

/-- C3 (amended).  For `1 ≤ n ≤ 16`, the generator raises an error for
inverted bounds only in the boundary case `a = b + 1`, where the modulus
`b - a + 1` is zero (a `ZeroDivisionError`, the only error the code can
produce here); for `a > b + 1` the modulus is negative and the call returns
a list normally. -/
theorem generator_invalid_range_amended (ID v : String) (n : Nat) (a b : Int)
    (hn1 : 1 ≤ n) (hn : n ≤ 16) :
    (a = b + 1 → generate_integers_range ID v n a b = .error .zeroDivisionError) ∧
    (b + 1 < a → ∃ l : List Int, generate_integers_range ID v n a b = .ok l) := by
  constructor
  · intro ha
    have hm : b - a + 1 = 0 := by omega
    obtain ⟨m, rfl⟩ : ∃ m, n = m + 1 := ⟨n - 1, by omega⟩
    simp only [generate_integers_range]
    rw [List.range_succ_eq_map]
    apply mapME_cons_error
    rw [chunk_parse_ok _ (by omega : 0 < 16)]
    simp [pyMod, hm, bind, Except.bind]
  · intro ha
    have hm : b - a + 1 ≠ 0 := by omega
    exact ⟨_, generate_integers_range_eq ID v n a b hn hm⟩

/-- Witness for the amended C3: at `a = 4, b = 3` the call with `n = 1`
raises `ZeroDivisionError`. -/
theorem generator_invalid_range_amended_witness :
    generate_integers_range "s" "t" 1 4 3 = .error .zeroDivisionError :=
  (generator_invalid_range_amended "s" "t" 1 4 3 (by decide) (by decide)).1 (by decide)

/-! ## Claim C4: failure when more than 16 outputs are requested -/

/-- C4.  With valid bounds `a ≤ b`, requesting `n > 16` outputs exhausts the
32-character digest: the 17th chunk is the empty slice, `int("", 32)`
raises, and the generator fails rather than returning a list.  (The concrete
exception is the `ValueError` from `int`, which realises the spec's
`InsufficientSeedEntropy` condition.) -/
theorem generator_entropy_exhaustion (ID v : String) (n : Nat) (a b : Int)
    (hab : a ≤ b) (hn : 16 < n) :
    generate_integers_range ID v n a b = .error .valueError := by
  have hm : b - a + 1 ≠ 0 := by omega
  have hsplit : n = 17 + (n - 17) := by omega
  simp only [generate_integers_range]
  rw [hsplit, List.range_add, show (17 : ℕ) = 16 + 1 by rfl, List.range_succ,
    List.append_assoc]
  refine mapME_append_error
    (mapME_map (fun k hk => gen_elem_ok ID v a b hm (List.mem_range.mp hk))) ?_ _
  have hempty : pySlice (md5HexOfString (ID ++ v)) (2 * 16) (2 * 16 + 2) = [] :=
    pySlice_of_le _ (by rw [md5HexOfString_length]) _
  rw [hempty]
  simp [pyIntBase32, bind, Except.bind]

/-- Witness for C4: requesting 17 integers from the range `[0, 5]` fails. -/
theorem generator_entropy_exhaustion_witness :
    generate_integers_range "x" "y" 17 0 5 = .error .valueError :=
  generator_entropy_exhaustion "x" "y" 17 0 5 (by decide) (by decide)

/-! ## Claim C10: the single-integer generator refines the list generator -/

/-- C10.  For `a ≤ b`, `generate_integer ID v a b` succeeds and returns
exactly the single element of `generate_integers_range ID v 1 a b`. -/
theorem generate_integer_refines_range (ID v : String) (a b : Int) (hab : a ≤ b) :
    ∃ x : Int, generate_integer ID v a b = .ok x ∧
      generate_integers_range ID v 1 a b = .ok [x] := by
  have hm : b - a + 1 ≠ 0 := by omega
  refine ⟨genSpecElem (ID ++ v) a b 0, ?_, ?_⟩
  · have h := gen_elem_ok ID v a b hm (by omega : 0 < 16)
    simpa [generate_integer] using h
  · rw [generate_integers_range_eq ID v 1 a b (by omega) hm]
    rfl

/-- Witness for C10 at the spec scenario inputs. -/
theorem generate_integer_refines_range_witness :
    ∃ x : Int, generate_integer "12345" "Q1_n" 5 7 = .ok x ∧
      generate_integers_range "12345" "Q1_n" 1 5 7 = .ok [x] :=
  generate_integer_refines_range "12345" "Q1_n" 5 7 (by decide)

/-! ## Claim C5: the polar formatter preserves the modulus exactly -/

/-- C5.  For every rational modulus `r` and every angle index, the exact
rectangular components `x = r·cos θ`, `y = r·sin θ` computed by
`complex_in_latex` satisfy `x² + y² = r²` as exact real numbers. -/
theorem polar_formatter_modulus (r : ℚ) (k : Fin 16) :
    complex_in_latex_x r k ^ 2 + complex_in_latex_y r k ^ 2 = (r : ℝ) ^ 2 := by
  have h := Real.sin_sq_add_cos_sq (theta_rad k)
  simp only [complex_in_latex_x, complex_in_latex_y]
  nlinarith [h]

/-! ## Claim C6: out-of-range variant selectors (corrected) -/

/-- Whether a Python call returned normally. -/
def exceptIsOk : Except PyErr α → Bool
  | .ok _ => true
  | .error _ => false

/-- Counterexample to C6: selector `0` is outside `[1, 12]`, yet
`Q5_get_prove_trig_hyp(0)` does **not** fail — `arr[-1]` is Python negative
indexing — and returns the last catalog entry as a question string. -/
theorem question_selector_zero_counterexample :
    Q5_get_prove_trig_hyp 0 =
      .ok "Prove that $$\\coth^\x7b-1\x7d z = \\frac\x7b1\x7d\x7b2\x7d\\,\\ln\\!\\left( \\frac\x7bz + 1\x7d\x7bz - 1\x7d \\right).$$" := by
  decide

/-- C6 (amended).  For the modelled family (catalog size `K = 12`), a call
fails — with an `IndexError`, the only error the code can raise — exactly
when the selector exceeds `K` or is below `1 - K`; selectors in `[1 - K, 0]`
are accepted through Python negative indexing and return a question
string. -/
theorem question_selector_amended (n : Int) :
    exceptIsOk (Q5_get_prove_trig_hyp n) = false ↔ 12 < n ∨ n < -11 := by
  have hlen : Q5_arr.length = 12 := rfl
  simp only [Q5_get_prove_trig_hyp, pyGetList, hlen]
  split_ifs with h1 h2 h3 <;> simp [Except.map, exceptIsOk] <;> omega

/-! ## Claims C7 and C8: the template renderer (both corrected) -/

theorem hasSubstr_nil_pat (s : List Char) : hasSubstr s [] = true := by
  cases s <;> simp [hasSubstr, List.isPrefixOf]

theorem pyReplaceGo_id {o : Char} {os new : List Char} :
    ∀ (fuel : Nat) (s : List Char), hasSubstr s (o :: os) = false →
      pyReplaceGo o os new fuel s = s := by
  intro fuel
  induction fuel with
  | zero => intro s _; cases s <;> rfl
  | succ fuel ih =>
    intro s hs
    match s with
    | [] => rfl
    | c :: t =>
      simp only [hasSubstr, Bool.or_eq_false_iff] at hs
      simp only [pyReplaceGo, hs.1, Bool.false_eq_true, if_false]
      rw [ih t hs.2]

theorem pyReplace_id {s old new : List Char} (hs : hasSubstr s old = false) :
    pyReplace s old new = s := by
  match old with
  | [] => rw [hasSubstr_nil_pat] at hs; exact absurd hs (by simp)
  | o :: os => exact pyReplaceGo_id _ s hs

theorem replace_placeholders_id (t : String) (kwargs : List (String × PyVal))
    (h : ∀ kv ∈ kwargs, hasSubstr t.data ("@" ++ kv.1 ++ "@").data = false) :
    replace_placeholders t kwargs = t := by
  induction kwargs with
  | nil => rfl
  | cons kv rest ih =>
    have hstep : String.mk (pyReplace t.data ("@" ++ kv.1 ++ "@").data (pyStr kv.2).data) = t := by
      rw [pyReplace_id (h kv (List.mem_cons_self kv rest))]
    simp only [replace_placeholders, List.foldl_cons, hstep]
    exact ih (fun kv' h' => h kv' (List.mem_cons_of_mem _ h'))

/-- Counterexample to C7: in the template `"@Ex@tra@"` the unmapped
placeholder `@tra@` occurs, but after rendering with the mapping
`{Ex: "Q"}` (which does not contain the name `tra`) it is destroyed — the
output is `"Qtra@"`, which no longer contains `@tra@` — because the
replaced occurrence of `@Ex@` overlaps it. -/
theorem renderer_unmapped_destroyed :
    replace_placeholders "@Ex@tra@" [("Ex", .s "Q")] = "Qtra@" ∧
    hasSubstr "@Ex@tra@".data "@tra@".data = true ∧
    hasSubstr "Qtra@".data "@tra@".data = false ∧
    "tra" ∉ [("Ex", PyVal.s "Q")].map Prod.fst := by
  refine ⟨by decide, by decide, by decide, by decide⟩

/-- C7 (amended).  The renderer substitutes, sequentially per supplied key,
the left-to-right non-overlapping occurrences of `@Key@` by the value's
string form.  A template in which no supplied placeholder pattern occurs is
returned unchanged — in particular unmapped placeholders survive whenever no
supplied occurrence overlaps them — and the spec scenario holds: rendering
`"Hello @Name@, ID @ID@"` with `{Name: "Alice", ID: 7}` yields
`"Hello Alice, ID 7"`, and an unmapped `@Extra@` is left verbatim. -/
theorem renderer_spec :
    (∀ (t : String) (kwargs : List (String × PyVal)),
      (∀ kv ∈ kwargs, hasSubstr t.data ("@" ++ kv.1 ++ "@").data = false) →
      replace_placeholders t kwargs = t) ∧
    replace_placeholders "Hello @Name@, ID @ID@"
      [("Name", .s "Alice"), ("ID", .i 7)] = "Hello Alice, ID 7" ∧
    replace_placeholders "Hello @Name@, ID @ID@, @Extra@"
      [("Name", .s "Alice"), ("ID", .i 7)] = "Hello Alice, ID 7, @Extra@" :=
  ⟨replace_placeholders_id, by decide, by decide⟩

/-- Witness for the amended C7: a template without any supplied placeholder
pattern is rendered unchanged. -/
theorem renderer_spec_witness :
    replace_placeholders "plain text, @Other@ kept" [("Name", PyVal.s "Alice")] =
      "plain text, @Other@ kept" :=
  renderer_spec.1 _ _ (by decide)

/-- Counterexample to C8: rendering is not idempotent in general — when a
supplied value reintroduces its own placeholder pattern, a second rendering
substitutes again. -/
theorem renderer_not_idempotent :
    replace_placeholders (replace_placeholders "@A@" [("A", .s "x@A@")]) [("A", .s "x@A@")] ≠
      replace_placeholders "@A@" [("A", .s "x@A@")] := by
  decide

/-- C8 (amended).  Rendering is idempotent whenever no supplied placeholder
pattern remains in the once-rendered output (the spec's own side condition):
a second rendering with the same mapping then changes nothing. -/
theorem renderer_idempotent_amended (t : String) (kwargs : List (String × PyVal))
    (h : ∀ kv ∈ kwargs,
      hasSubstr (replace_placeholders t kwargs).data ("@" ++ kv.1 ++ "@").data = false) :
    replace_placeholders (replace_placeholders t kwargs) kwargs =
      replace_placeholders t kwargs :=
  replace_placeholders_id _ _ h

/-- Witness for the amended C8 at the spec scenario. -/
theorem renderer_idempotent_amended_witness :
    replace_placeholders
        (replace_placeholders "Hello @Name@, ID @ID@" [("Name", PyVal.s "Alice"), ("ID", PyVal.i 7)])
        [("Name", PyVal.s "Alice"), ("ID", PyVal.i 7)] =
      replace_placeholders "Hello @Name@, ID @ID@" [("Name", PyVal.s "Alice"), ("ID", PyVal.i 7)] :=
  renderer_idempotent_amended _ _ (by decide)

/-! ## Claim C9: `safe_filename` (corrected) -/

theorem pyReplaceGo_single (a b : Char) :
    ∀ (fuel : Nat) (s : List Char), s.length ≤ fuel →
      pyReplaceGo a [] [b] fuel s = s.map (fun c => if c = a then b else c) := by
  intro fuel
  induction fuel with
  | zero =>
    intro s hs
    have : s = [] := List.eq_nil_of_length_eq_zero (by omega)
    subst this; rfl
  | succ fuel ih =>
    intro s hs
    match s with
    | [] => rfl
    | c :: t =>
      have ht : t.length ≤ fuel := by simp only [List.length_cons] at hs; omega
      by_cases hc : c = a
      · subst hc
        simp [pyReplaceGo, List.isPrefixOf, ih t ht]
      · have hne : (a == c) = false := beq_eq_false_iff_ne.mpr (Ne.symm hc)
        simp [pyReplaceGo, List.isPrefixOf, hne, hc, ih t ht]

theorem pyReplace_single (a b : Char) (s : List Char) :
    pyReplace s [a] [b] = s.map (fun c => if c = a then b else c) :=
  pyReplaceGo_single a b s.length s (le_refl _)

/-- The characters that can actually appear in a `safe_filename` result:
word characters (including the underscore), hyphens, and residual non-space
whitespace (tabs, newlines, …) that `.replace(" ", "_")` does not touch. -/
def safeChar (c : Char) : Bool :=
  isPyWordChar c || c == '-' || (isPySpace c && !(c == ' '))

/-- Counterexample to C9: a truthy name consisting only of stripped
characters yields the **empty** string (the `"Unknown"` fallback fires only
for falsy names), and a name with an internal tab keeps the tab, which is
neither a word character, an underscore, nor a hyphen. -/
theorem safe_filename_counterexample :
    safe_filename (some "!!!") = "" ∧ safe_filename (some "a\tb") = "a\tb" := by
  refine ⟨by decide, by decide⟩

/-- C9 (amended).  Every character of a `safe_filename` result is a word
character, a hyphen, or residual non-space whitespace (spaces having been
turned into underscores); the `"Unknown"` fallback fires exactly for the
falsy inputs (`None` or the empty string), while a non-empty name may still
produce the empty string. -/
theorem safe_filename_amended :
    (∀ name : Option String, (safe_filename name).data.all safeChar = true) ∧
    safe_filename none = "Unknown" ∧ safe_filename (some "") = "Unknown" := by
  refine ⟨?_, by decide, by decide⟩
  intro name
  simp only [safe_filename, pyReplace_single]
  rw [List.all_eq_true]
  intro c hc
  simp only [List.mem_map] at hc
  obtain ⟨c', hc', rfl⟩ := hc
  have h1 : c' ∈ List.dropWhile isPySpace (List.reverse (List.dropWhile isPySpace _)) :=
    List.mem_reverse.mp hc'
  have h2 := List.Sublist.mem h1 (List.dropWhile_sublist _)
  have h3 := List.mem_reverse.mp h2
  have h4 := List.Sublist.mem h3 (List.dropWhile_sublist _)
  have hkeep := (List.mem_filter.mp h4).2
  by_cases hsp : c' = ' '
  · subst hsp; decide
  · simp only [if_neg hsp]
    simp only [Bool.or_eq_true] at hkeep
    have hne : (c' == ' ') = false := beq_eq_false_iff_ne.mpr hsp
    rcases hkeep with (hw | hs) | hh
    · simp [safeChar, hw]
    · simp [safeChar, hs, hne]
    · simp [safeChar, hh]
